import Mathlib

/-!
Shallow embedding of the elos command layer: the Prompt Channel Adapter
(`TextUI`, src/command/input.go), the Command Session dispatch loop
(`Session`, src/command/input.go), and the Change-Feed Consumer
(`StreamCommand`, src/command/stream.go).

Channels are embedded as the finite trace of messages they deliver before
closing; message sends are collected into a `List String` in emission
order.  The storage collaborator (github.com/elos/data and
github.com/elos/models, an external dependency of this repository) is
embedded through its interface contract: each relation lookup returns a
value, the empty-link sentinel (`models.ErrEmptyLink`), or an error.
-/

namespace Elos

/-- Status code `success = 0` (src/command/todo.go). -/
def success : Int := 0

/-- Status code `failure = 1` (src/command/todo.go). -/
def failure : Int := 1

namespace TextUI

/-- The method `TextUI.send`: `u.out <- txt`, exactly one message on the
output channel, content unchanged. -/
def send (txt : String) : List String := [txt]

/-- The method `TextUI.Ask`: send the prompt, then select between the next
input message (`arrival = some msg`, a reply arriving within the 5-minute
window) and the 5-minute timer firing (`arrival = none`).  Returns the
messages sent on the output channel paired with the result. -/
def Ask (prompt : String) (arrival : Option String) :
    List String × Except String String :=
  match arrival with
  | some msg => (send prompt, Except.ok msg)
  | none => (send prompt ++ ["timeout"], Except.error "TextUI Ask, timeout")

/-- The method `TextUI.AskSecret` delegates to `Ask` unchanged. -/
def AskSecret (prompt : String) (arrival : Option String) :
    List String × Except String String :=
  Ask prompt arrival

/-- The method `TextUI.Output` forwards to `send`. -/
def Output (s : String) : List String := send s

/-- The method `TextUI.Info` forwards to `send`. -/
def Info (s : String) : List String := send s

/-- The method `TextUI.Error` forwards to `send`. -/
def Error (s : String) : List String := send s

/-- The method `TextUI.Warn` forwards to `send`. -/
def Warn (s : String) : List String := send s

end TextUI

namespace Session

/-- Character-level splitter: cut the character list at every character
satisfying `p`, keeping empty fields, accumulator holding the current field
reversed. -/
def splitCharsWhen (p : Char → Bool) : List Char → List Char → List (List Char)
  | [], acc => [acc.reverse]
  | c :: rest, acc =>
      if p c then acc.reverse :: splitCharsWhen p rest []
      else splitCharsWhen p rest (c :: acc)

/-- Go `strings.Split(i, " ")` as used by `Session.Start`: split around every
single space character, keeping empty fields (so consecutive spaces yield
empty tokens, and a tab is not a separator). -/
def splitOnSpace (s : String) : List String :=
  (splitCharsWhen (fun c => c = ' ') s.data []).map String.mk

/-- Modelled from the spec wording "split the line on whitespace into an
argument vector": whitespace tokenization dropping empty tokens, as Go
`strings.Fields` would produce.  Declared only to compare the claim wording
against the source behaviour. -/
def splitWhitespaceSpec (s : String) : List String :=
  ((splitCharsWhen Char.isWhitespace s.data []).map String.mk).filter
    (fun t => t ≠ "")

/-- The fresh value built per dispatched line by `Session.run`:
`cli.NewCLI("elos", "0.1")` with `c.Args = args`. -/
structure CLI where
  name : String
  version : String
  args : List String
deriving DecidableEq

/-- The method `Session.run args`: construct a fresh CLI bound to the
argument vector.  The interpreter result is only logged via `log.Printf`,
never consulted. -/
def run (args : List String) : CLI := ⟨"elos", "0.1", args⟩

/-- The dispatch loop body, one element per received line: split the line on
the space character, construct a fresh CLI, invoke the interpreter, and
record the pair.  The status is recorded but nothing branches on it. -/
def dispatchLoop (interp : List String → Int) :
    List String → List (CLI × Int)
  | [] => []
  | line :: rest =>
      let c := run (splitOnSpace line)
      (c, interp c.args) :: dispatchLoop interp rest

/-- Observable trace of one `Session.Start` call: messages sent on the
output channel, number of `bail()` invocations, number of receive
operations issued on the input channel, and the dispatched invocations. -/
structure StartTrace where
  outputs : List String
  bails : Nat
  receives : Nat
  dispatched : List (CLI × Int)
deriving DecidableEq

/-- The method `Session.Start` (src/command/input.go).  When the bound user
is unset (`s.user == nil`) the fixed "no account" message is sent and
`bail()` is invoked; the source has no `return` there, so control falls
through into `for i := range s.input` in every case.  The range loop issues
one receive per delivered line plus the final receive that observes
closure. -/
def Start (user : Option String) (input : List String)
    (interp : List String → Int) : StartTrace :=
  let g : List String × Nat :=
    match user with
    | none => (["Looks like you don\x27t have an account, sorry :("], 1)
    | some _ => ([], 0)
  ⟨g.1, g.2, input.length + 1, dispatchLoop interp input⟩

end Session

namespace StreamCommand

/-- A tag record; only the `Name` field is rendered. -/
structure Tag where
  name : String
deriving DecidableEq

/-- A location record.  The source fields are float64 rendered with `%f`;
no claim depends on float arithmetic, so each coordinate is embedded as its
`%f`-formatted decimal text. -/
structure Location where
  latitude : String
  longitude : String
  altitude : String
deriving DecidableEq

/-- A note record; only the `Text` field is rendered. -/
structure Note where
  text : String
deriving DecidableEq

/-- An event record; only the `Name` field is rendered directly. -/
structure Event where
  name : String
deriving DecidableEq

/-- `data.ChangeKind`: Create, Update or Delete. -/
inductive ChangeKind
  | Create
  | Update
  | Delete
deriving DecidableEq

/-- The record carried by a change: either a domain Event or a record of
some other kind (task, tag, note, habit, …).  In the source,
`Record.Kind() == models.EventKind` exactly when the record is a
`*models.Event`, so the type assertion following the kind test cannot
fail; the constructor is that kind test. -/
inductive Record
  | event (e : Event)
  | other (kind : String)
deriving DecidableEq

/-- Whether the record's kind is the domain Event kind. -/
def Record.isEvent : Record → Bool
  | Record.event _ => true
  | Record.other _ => false

/-- A change event from the feed: change-kind plus record. -/
structure Change where
  kind : ChangeKind
  record : Record
deriving DecidableEq

/-- Result of a relation lookup on the storage collaborator: a value, the
empty-link sentinel `models.ErrEmptyLink`, or any other error. -/
inductive LookupResult (α : Type)
  | ok (a : α)
  | emptyLink
  | err (msg : String)
deriving DecidableEq

/-- The storage collaborator's relation lookups for events: `e.Tags(db)`,
`e.Location(db)`, `e.Note(db)`. -/
structure DB where
  tags : Event → LookupResult (List Tag)
  location : Event → LookupResult Location
  note : Event → LookupResult Note

/-- The tag-badge fold: `tagString += fmt.Sprintf(" [%s]", t.Name)` over the
tags in order, starting from the empty string. -/
def tagBadges (tags : List Tag) : String :=
  tags.foldl (fun acc t => acc ++ " [" ++ t.name ++ "]") ""

/-- The tags segment: `if tagString == "" { " " } else { tagString + ": " }`
applied to the badge fold. -/
def renderTags (tags : List Tag) : String :=
  if tagBadges tags = "" then " " else tagBadges tags ++ ": "

/-- Modelled from the claim wording only: the tags segment as the
concatenation of plain "[name]" badges (no space before each badge),
followed by ": " when at least one tag exists, otherwise a single space.
Declared only to compare the claim wording against the source behaviour. -/
def renderTagsSpec (tags : List Tag) : String :=
  let tagString := tags.foldl (fun acc t => acc ++ "[" ++ t.name ++ "]") ""
  if tagString = "" then " " else tagString ++ ": "

/-- The location text `fmt.Sprintf("(lat: %f, lon: %f, alt: %f)", ...)`. -/
def locationString (loc : Location) : String :=
  "(lat: " ++ loc.latitude ++ ", lon: " ++ loc.longitude ++ ", alt: " ++
    loc.altitude ++ ")"

/-- The location lookup branch: an error other than `ErrEmptyLink` aborts
(`none`); otherwise the location text, empty when the link is empty
(`loc == nil` leaves `locString` empty). -/
def locPart : LookupResult Location → Option String
  | LookupResult.ok loc => some (locationString loc)
  | LookupResult.emptyLink => some ""
  | LookupResult.err _ => none

/-- The note lookup branch: an error other than `ErrEmptyLink` aborts
(`none`); otherwise the extra note line when a note is attached. -/
def notePart : LookupResult Note → Option (List String)
  | LookupResult.ok n => some ["\tNote: " ++ n.text]
  | LookupResult.emptyLink => some []
  | LookupResult.err _ => none

/-- Outcome of one loop iteration on a change: either the loop continues
after emitting `lines`, or the command returns failure after emitting
`lines`. -/
inductive StepResult
  | emit (lines : List String)
  | fail (lines : List String)
deriving DecidableEq

/-- Lines written by a step, whether it continues or aborts. -/
def StepResult.lines : StepResult → List String
  | StepResult.emit l => l
  | StepResult.fail l => l

/-- Per-change body of the consumer loop (src/command/stream.go, the
`case change, ok := <-changes` branch after the closure test).  The
filtering continues silently on non-Update kinds and non-Event records.
Failure branches carry the lines already written before `return failure`;
the lookup-error branches write nothing (the source has `// TODO errorf`
there).  The tags lookup fails on every non-nil error, the empty-link
sentinel included; location and note treat the empty-link sentinel as
absence. -/
def processChange (db : DB) (ch : Change) : StepResult :=
  if ch.kind ≠ ChangeKind.Update then StepResult.emit []
  else
    match ch.record with
    | Record.other _ => StepResult.emit []
    | Record.event e =>
      match db.tags e with
      | LookupResult.err _ => StepResult.fail []
      | LookupResult.emptyLink => StepResult.fail []
      | LookupResult.ok tags =>
        match locPart (db.location e) with
        | none => StepResult.fail []
        | some locString =>
          let line := renderTags tags ++ e.name ++ " " ++ locString
          match notePart (db.note e) with
          | none => StepResult.fail [line]
          | some extra => StepResult.emit (line :: extra)

/-- One wakeup of the consumer's select: either the 5-second heartbeat
timer fired (no change arrived within 5 seconds of the last wakeup), or
the next change was delivered by the feed. -/
inductive Signal
  | heartbeat
  | change (ch : Change)
deriving DecidableEq

/-- The consumer select loop (src/command/stream.go).  The feed is embedded
as the list of wakeups in delivery order; after the list is exhausted the
channel is observed closed (`ok == false`), which emits the closure line
and returns success.  A heartbeat emits its literal line and the loop
continues with a rearmed timer; a change is processed and the loop either
continues or returns failure. -/
def runLoop (db : DB) : List Signal → List String × Int
  | [] => (["Connection closed by server"], success)
  | Signal.heartbeat :: rest =>
      let r := runLoop db rest
      ("5 second heartbeat" :: r.1, r.2)
  | Signal.change ch :: rest =>
      match processChange db ch with
      | StepResult.emit lines =>
          let r := runLoop db rest
          (lines ++ r.1, r.2)
      | StepResult.fail lines => (lines, failure)

/-- The method `StreamCommand.Run`: the three precondition guards and then
the loop.  A nil UI returns failure writing nothing (there is no UI to
write to); a missing user id or DB writes one `errorf` line. -/
def Run (hasUI : Bool) (userID : String) (hasDB : Bool) (db : DB)
    (feed : List Signal) : List String × Int :=
  if hasUI = false then ([], failure)
  else if userID = "" then (["[elos stream] Error: no user id"], failure)
  else if hasDB = false then (["[elos stream] Error: no db"], failure)
  else runLoop db feed

end StreamCommand

/-- Concrete event used by witnesses: name "standup", no relations. -/
def ev0 : StreamCommand.Event := ⟨"standup"⟩

/-- Concrete change used by witnesses: an Update carrying `ev0`. -/
def chUpd : StreamCommand.Change :=
  ⟨StreamCommand.ChangeKind.Update, StreamCommand.Record.event ev0⟩

/-- Concrete change used by witnesses: a Create carrying `ev0`. -/
def chCreate : StreamCommand.Change :=
  ⟨StreamCommand.ChangeKind.Create, StreamCommand.Record.event ev0⟩

/-- Storage stub: no tags, empty location link, empty note link. -/
def db0 : StreamCommand.DB :=
  ⟨fun _ => StreamCommand.LookupResult.ok [],
   fun _ => StreamCommand.LookupResult.emptyLink,
   fun _ => StreamCommand.LookupResult.emptyLink⟩

/-- Storage stub whose tags lookup fails with a non-sentinel error. -/
def dbTagsErr : StreamCommand.DB :=
  ⟨fun _ => StreamCommand.LookupResult.err "boom",
   fun _ => StreamCommand.LookupResult.emptyLink,
   fun _ => StreamCommand.LookupResult.emptyLink⟩

/-- Storage stub whose tags lookup returns the empty-link sentinel. -/
def dbTagsEL : StreamCommand.DB :=
  ⟨fun _ => StreamCommand.LookupResult.emptyLink,
   fun _ => StreamCommand.LookupResult.emptyLink,
   fun _ => StreamCommand.LookupResult.emptyLink⟩

/-- Storage stub with exactly one tag, named "work". -/
def dbOneTag : StreamCommand.DB :=
  ⟨fun _ => StreamCommand.LookupResult.ok [⟨"work"⟩],
   fun _ => StreamCommand.LookupResult.emptyLink,
   fun _ => StreamCommand.LookupResult.emptyLink⟩

open StreamCommand

/-! Helper lemmas about string concatenation at the character-list level. -/

theorem strAppend_assoc (a b c : String) : (a ++ b) ++ c = a ++ (b ++ c) :=
  String.ext (by simp [String.data_append])

theorem strAppend_empty (s : String) : s ++ "" = s :=
  String.ext (by simp [String.data_append])

theorem strEmpty_append (s : String) : "" ++ s = s :=
  String.ext (by simp [String.data_append])

theorem data_head_append (s t : String) (c : Char) (cs : List Char)
    (h : s.data = c :: cs) : (s ++ t).data = c :: (cs ++ t.data) := by
  rw [String.data_append, h]; rfl

theorem ne_closure_of_head (l : String) (c : Char) (cs : List Char)
    (h : l.data = c :: cs) (hc : c ≠ 'C') :
    l ≠ "Connection closed by server" := by
  intro he
  rw [he] at h
  have h0 : ("Connection closed by server" : String).data =
      'C' :: ("onnection closed by server" : String).data := rfl
  rw [h0] at h
  injection h with h1 h2
  exact hc h1.symm

/-! Helper lemmas about the rendered lines of the Change-Feed Consumer. -/

theorem tagBadges_fold_factor (ts : List Tag) (s : String) :
    List.foldl (fun acc tg => acc ++ " [" ++ tg.name ++ "]") s ts =
      s ++ tagBadges ts := by
  induction ts generalizing s with
  | nil => exact (strAppend_empty s).symm
  | cons t ts ih =>
    show List.foldl _ (s ++ " [" ++ t.name ++ "]") ts = _
    rw [ih]
    have hcons : tagBadges (t :: ts) = ("" ++ " [" ++ t.name ++ "]") ++ tagBadges ts := by
      show List.foldl _ ("" ++ " [" ++ t.name ++ "]") ts = _
      rw [ih]
    rw [hcons]
    simp [strAppend_assoc, strEmpty_append]

theorem tagBadges_cons (t : Tag) (ts : List Tag) :
    tagBadges (t :: ts) = " [" ++ (t.name ++ ("]" ++ tagBadges ts)) := by
  show List.foldl _ ("" ++ " [" ++ t.name ++ "]") ts = _
  rw [tagBadges_fold_factor]
  simp [strAppend_assoc, strEmpty_append]

theorem renderTags_data (ts : List Tag) :
    ∃ cs : List Char, (renderTags ts).data = ' ' :: cs := by
  cases ts with
  | nil => exact ⟨[], rfl⟩
  | cons t ts =>
    have hdata : (tagBadges (t :: ts)).data =
        ' ' :: ('[' :: (t.name ++ ("]" ++ tagBadges ts)).data) := by
      rw [tagBadges_cons, String.data_append]; rfl
    have hne : tagBadges (t :: ts) ≠ "" := by
      intro h
      rw [h] at hdata
      simp at hdata
    refine ⟨'[' :: ((t.name ++ ("]" ++ tagBadges ts)).data ++ [':', ' ']), ?_⟩
    unfold renderTags
    rw [if_neg hne, String.data_append, hdata]
    rfl

theorem eventLine_head (ts : List Tag) (nm ls : String) :
    ∃ cs : List Char, (renderTags ts ++ nm ++ " " ++ ls).data = ' ' :: cs := by
  obtain ⟨cs, h⟩ := renderTags_data ts
  have h1 := data_head_append (renderTags ts) nm ' ' cs h
  have h2 := data_head_append (renderTags ts ++ nm) " " ' ' (cs ++ nm.data) h1
  exact ⟨((cs ++ nm.data) ++ (" " : String).data) ++ ls.data,
    data_head_append (renderTags ts ++ nm ++ " ") ls ' '
      ((cs ++ nm.data) ++ (" " : String).data) h2⟩

theorem noteLine_head (txt : String) :
    ∃ cs : List Char, (("\tNote: " ++ txt : String)).data = '\t' :: cs :=
  ⟨['N', 'o', 't', 'e', ':', ' '] ++ txt.data,
    data_head_append "\tNote: " txt '\t' ['N', 'o', 't', 'e', ':', ' '] rfl⟩

theorem processChange_lines_shape (db : DB) (ch : Change) :
    (processChange db ch).lines = [] ∨
    (∃ ts nm ls, (processChange db ch).lines =
      [renderTags ts ++ nm ++ " " ++ ls]) ∨
    (∃ ts nm ls txt, (processChange db ch).lines =
      [renderTags ts ++ nm ++ " " ++ ls, "\tNote: " ++ txt]) := by
  obtain ⟨kind, record⟩ := ch
  cases record with
  | other k =>
    exact Or.inl (by cases kind <;> simp [processChange, StepResult.lines])
  | event e =>
    cases kind with
    | Create => exact Or.inl (by simp [processChange, StepResult.lines])
    | Delete => exact Or.inl (by simp [processChange, StepResult.lines])
    | Update =>
      cases htags : db.tags e with
      | err m =>
        exact Or.inl (by simp [processChange, htags, StepResult.lines])
      | emptyLink =>
        exact Or.inl (by simp [processChange, htags, StepResult.lines])
      | ok ts =>
        cases hloc : db.location e with
        | err m =>
          exact Or.inl
            (by simp [processChange, htags, hloc, locPart, StepResult.lines])
        | emptyLink =>
          cases hnote : db.note e with
          | err m =>
            exact Or.inr (Or.inl ⟨ts, e.name, "", by
              simp [processChange, htags, hloc, hnote, locPart, notePart,
                StepResult.lines]⟩)
          | emptyLink =>
            exact Or.inr (Or.inl ⟨ts, e.name, "", by
              simp [processChange, htags, hloc, hnote, locPart, notePart,
                StepResult.lines]⟩)
          | ok n =>
            exact Or.inr (Or.inr ⟨ts, e.name, "", n.text, by
              simp [processChange, htags, hloc, hnote, locPart, notePart,
                StepResult.lines]⟩)
        | ok loc =>
          cases hnote : db.note e with
          | err m =>
            exact Or.inr (Or.inl ⟨ts, e.name, locationString loc, by
              simp [processChange, htags, hloc, hnote, locPart, notePart,
                StepResult.lines]⟩)
          | emptyLink =>
            exact Or.inr (Or.inl ⟨ts, e.name, locationString loc, by
              simp [processChange, htags, hloc, hnote, locPart, notePart,
                StepResult.lines]⟩)
          | ok n =>
            exact Or.inr (Or.inr ⟨ts, e.name, locationString loc, n.text, by
              simp [processChange, htags, hloc, hnote, locPart, notePart,
                StepResult.lines]⟩)

theorem processChange_no_closure (db : DB) (ch : Change) :
    ∀ l ∈ (processChange db ch).lines, l ≠ "Connection closed by server" := by
  intro l hl
  rcases processChange_lines_shape db ch with h | ⟨ts, nm, ls, h⟩ | ⟨ts, nm, ls, txt, h⟩
  · rw [h] at hl
    cases hl
  · rw [h] at hl
    rw [List.mem_singleton] at hl
    subst hl
    obtain ⟨cs, hcs⟩ := eventLine_head ts nm ls
    exact ne_closure_of_head _ _ _ hcs (by decide)
  · rw [h] at hl
    rcases List.mem_cons.mp hl with h1 | h1
    · subst h1
      obtain ⟨cs, hcs⟩ := eventLine_head ts nm ls
      exact ne_closure_of_head _ _ _ hcs (by decide)
    · rw [List.mem_singleton] at h1
      subst h1
      obtain ⟨cs, hcs⟩ := noteLine_head txt
      exact ne_closure_of_head _ _ _ hcs (by decide)

theorem runLoop_change_emit (db : DB) (ch : Change) (rest : List Signal)
    (lines : List String) (h : processChange db ch = StepResult.emit lines) :
    runLoop db (Signal.change ch :: rest) =
      (lines ++ (runLoop db rest).1, (runLoop db rest).2) := by
  show (match processChange db ch with
        | StepResult.emit lines =>
          let r := runLoop db rest
          (lines ++ r.1, r.2)
        | StepResult.fail lines => (lines, failure)) = _
  rw [h]

theorem runLoop_change_fail (db : DB) (ch : Change) (rest : List Signal)
    (lines : List String) (h : processChange db ch = StepResult.fail lines) :
    runLoop db (Signal.change ch :: rest) = (lines, failure) := by
  show (match processChange db ch with
        | StepResult.emit lines =>
          let r := runLoop db rest
          (lines ++ r.1, r.2)
        | StepResult.fail lines => (lines, failure)) = _
  rw [h]

/-! Claim theorems. -/

/-- Claim C1 (the code at the failing input): a session bound to an unset
user identity emits the fixed "no account" message and invokes `bail` once,
but — `Start` having no `return` after `bail()` — it still falls into the
dispatch loop: with one line delivered before closure it issues two receives
on the input channel and dispatches the line, instead of returning with
zero receives as the claim states. -/
theorem claim_C1_nil_user_still_reads :
    Session.Start none ["todo new"] (fun _ => success) =
      ⟨["Looks like you don\x27t have an account, sorry :("], 1, 2,
        [(⟨"elos", "0.1", ["todo", "new"]⟩, success)]⟩ ∧
    (Session.Start none [] (fun _ => success)).receives = 1 := by
  exact ⟨by decide, by decide⟩

/-- Claim C2, counterexample: the dispatch loop splits each line on the
single space character (`strings.Split(i, " ")`), not on whitespace: the
line "a  b" is dispatched as the argument vector ["a", "", "b"], while
whitespace tokenization gives ["a", "b"]. -/
theorem claim_C2_counterexample :
    Session.splitOnSpace "a  b" = ["a", "", "b"] ∧
    Session.splitWhitespaceSpec "a  b" = ["a", "b"] ∧
    Session.splitOnSpace "a  b" ≠ Session.splitWhitespaceSpec "a  b" ∧
    (Session.dispatchLoop (fun _ => success) ["a  b"]).map
        (fun p => p.1.args) = [["a", "", "b"]] := by
  exact ⟨by decide, by decide, by decide, by decide⟩

/-- Claim C2 (amended: split on the single space character): every line
received by the dispatch loop is split on " " and handed to a freshly
constructed command interpreter (a fresh CLI value per line), and the
statuses returned by the interpreter never change the loop's continuation:
for every interpreter the dispatched sequence is exactly the map over all
input lines. -/
theorem claim_C2_dispatch_independent (input : List String)
    (interp1 interp2 : List String → Int) :
    (Session.dispatchLoop interp1 input).map Prod.fst =
      input.map (fun line => Session.run (Session.splitOnSpace line)) ∧
    (Session.dispatchLoop interp1 input).map Prod.fst =
      (Session.dispatchLoop interp2 input).map Prod.fst := by
  have key : ∀ (f : List String → Int) (xs : List String),
      (Session.dispatchLoop f xs).map Prod.fst =
        xs.map (fun line => Session.run (Session.splitOnSpace line)) := by
    intro f xs
    induction xs with
    | nil => rfl
    | cons l rest ih => simp [Session.dispatchLoop, ih]
  exact ⟨key interp1 input, (key interp1 input).trans (key interp2 input).symm⟩

/-- Claim C3: an `Ask` that receives no reply within the 5-minute window
sends exactly one additional line after the prompt — the literal "timeout",
never zero lines and never more than one — and returns the timeout error;
an answered `Ask` returns the reply having sent only the prompt.  Exactly
one of the two outcomes occurs on every call. -/
theorem claim_C3_ask_outcomes (prompt m : String) :
    TextUI.Ask prompt none =
      ([prompt, "timeout"], Except.error "TextUI Ask, timeout") ∧
    TextUI.Ask prompt (some m) = ([prompt], Except.ok m) ∧
    (∀ arrival : Option String,
      (TextUI.Ask prompt arrival).1 = [prompt] ∨
      (TextUI.Ask prompt arrival).1 = [prompt, "timeout"]) := by
  refine ⟨rfl, rfl, ?_⟩
  intro arrival
  cases arrival with
  | none => exact Or.inr rfl
  | some msg => exact Or.inl rfl

/-- Claim C4 (the code at the failing input): a tags-lookup failure on a
matched Update/Event change ends the loop immediately with failure status
but writes no error line at all — the run produces zero lines, the source
error branches being `// TODO errorf` placeholders — contradicting the
claim that exactly one descriptive error line is emitted. -/
theorem claim_C4_silent_lookup_failure :
    StreamCommand.Run true "u" true dbTagsErr
      [Signal.change ⟨ChangeKind.Update, Record.event ev0⟩] =
      ([], failure) := rfl

/-- Claim C5: a change produces output lines only if its change-kind is
Update and its record-kind is the Event kind — every Create or Delete
change and every non-Event record produces no lines at all — and
conversely an Update/Event change whose tags lookup succeeds and whose
location lookup does not hard-fail is rendered with at least one line. -/
theorem claim_C5_update_event_filter (db : DB) (ch : Change) :
    (¬(ch.kind = ChangeKind.Update ∧ ch.record.isEvent = true) →
      processChange db ch = StepResult.emit []) ∧
    (∀ e ts, ch.kind = ChangeKind.Update → ch.record = Record.event e →
      db.tags e = LookupResult.ok ts →
      (∀ m, db.location e ≠ LookupResult.err m) →
      (processChange db ch).lines ≠ []) := by
  obtain ⟨kind, record⟩ := ch
  constructor
  · intro hnot
    cases record with
    | other k => cases kind <;> simp_all [processChange]
    | event e =>
      cases kind with
      | Create => simp [processChange]
      | Delete => simp [processChange]
      | Update => exact absurd ⟨rfl, rfl⟩ hnot
  · intro e ts hk hrec htags hloc
    cases hrec
    cases hk
    cases hl : db.location e with
    | err m => exact absurd hl (hloc m)
    | emptyLink =>
      cases hn : db.note e <;>
        simp [processChange, htags, hl, hn, locPart, notePart, StepResult.lines]
    | ok loc =>
      cases hn : db.note e <;>
        simp [processChange, htags, hl, hn, locPart, notePart, StepResult.lines]

/-- Claim C5 witness: with lookups that succeed trivially, a Create change
on an Event record produces no lines, and an Update change on the same
record is rendered. -/
theorem claim_C5_witness :
    processChange db0 chCreate = StepResult.emit [] ∧
    (processChange db0 chUpd).lines ≠ [] :=
  ⟨(claim_C5_update_event_filter db0 chCreate).1 (by decide),
   (claim_C5_update_event_filter db0 chUpd).2 ev0 [] rfl rfl rfl
     (fun m h => LookupResult.noConfusion h)⟩

/-- Claim C6: whenever the loop terminates with success — that is, the feed
signalled closure — the line "Connection closed by server" is the last line
written, it occurs exactly once, and no line of any kind (heartbeat
included) follows it. -/
theorem claim_C6_closure_line (db : DB) (feed : List Signal)
    (h : (runLoop db feed).2 = success) :
    ∃ pre, (runLoop db feed).1 = pre ++ ["Connection closed by server"] ∧
      "Connection closed by server" ∉ pre := by
  induction feed with
  | nil => exact ⟨[], rfl, List.not_mem_nil _⟩
  | cons sig rest ih =>
    cases sig with
    | heartbeat =>
      have h2 : (runLoop db rest).2 = success := h
      obtain ⟨pre, hpre, hmem⟩ := ih h2
      refine ⟨"5 second heartbeat" :: pre, ?_, ?_⟩
      · show "5 second heartbeat" :: (runLoop db rest).1 = _
        rw [hpre]
        rfl
      · intro hc
        rcases List.mem_cons.mp hc with hc | hc
        · exact absurd hc (by decide)
        · exact hmem hc
    | change ch =>
      cases hpc : processChange db ch with
      | emit lines =>
        have heq := runLoop_change_emit db ch rest lines hpc
        have h2 : (runLoop db rest).2 = success := by
          rw [heq] at h
          exact h
        obtain ⟨pre, hpre, hmem⟩ := ih h2
        refine ⟨lines ++ pre, ?_, ?_⟩
        · rw [heq]
          show lines ++ (runLoop db rest).1 = _
          rw [hpre, List.append_assoc]
        · intro hc
          rcases List.mem_append.mp hc with hc | hc
          · exact processChange_no_closure db ch _ (by rw [hpc]; exact hc) rfl
          · exact hmem hc
      | fail lines =>
        have heq := runLoop_change_fail db ch rest lines hpc
        rw [heq] at h
        have h3 : failure = success := h
        exact absurd h3 (by decide)

/-- Claim C6 witness: a feed with one heartbeat firing and then closure. -/
theorem claim_C6_witness :
    ∃ pre, (runLoop db0 [Signal.heartbeat]).1 =
        pre ++ ["Connection closed by server"] ∧
      "Connection closed by server" ∉ pre :=
  claim_C6_closure_line db0 [Signal.heartbeat] rfl

/-- Claim C7, counterexample: the code renders each tag badge with a
leading space (`fmt.Sprintf(" [%s]", t.Name)`), so an Update/Event change
with one tag "work" yields the line " [work]: standup " — not
"[work]: standup " as the claimed concatenation of plain "[name]" badges
would produce. -/
theorem claim_C7_counterexample :
    processChange dbOneTag chUpd = StepResult.emit [" [work]: standup "] ∧
    renderTagsSpec [⟨"work"⟩] ++ ev0.name ++ " " ++ "" = "[work]: standup " ∧
    (" [work]: standup " : String) ≠ "[work]: standup " := by
  exact ⟨by decide, by decide, by decide⟩

/-- Claim C7 (amended: each badge carries a leading space): a rendered
Update/Event change's first line is "<tags><event name> <location>" where
the tags segment concatenates " [name]" badges followed by ": " when any
tag exists and is a single space otherwise; with no tags, no location and
no note the output is exactly the single line " <event name> " — leading
space, trailing space, nothing after, no second line. -/
theorem claim_C7_line_format (db : DB) (ch : Change) (e : Event)
    (ts : List Tag) (ls : String)
    (hk : ch.kind = ChangeKind.Update) (hrec : ch.record = Record.event e)
    (htags : db.tags e = LookupResult.ok ts)
    (hloc : locPart (db.location e) = some ls) :
    (processChange db ch).lines.head? =
      some (renderTags ts ++ e.name ++ " " ++ ls) ∧
    (ts = [] → ls = "" → db.note e = LookupResult.emptyLink →
      processChange db ch = StepResult.emit [" " ++ e.name ++ " "]) := by
  constructor
  · cases hn : db.note e <;>
      simp [processChange, hk, hrec, htags, hloc, hn, notePart,
        StepResult.lines]
  · intro hts hls hn
    subst hts
    subst hls
    simp [processChange, hk, hrec, htags, hloc, hn, notePart, renderTags,
      tagBadges, strAppend_empty]

/-- Claim C7 witness: the no-tags, no-location, no-note scenario on a
concrete event. -/
theorem claim_C7_witness :
    (processChange db0 chUpd).lines.head? =
      some (renderTags [] ++ ev0.name ++ " " ++ "") ∧
    processChange db0 chUpd = StepResult.emit [" " ++ ev0.name ++ " "] :=
  ⟨(claim_C7_line_format db0 chUpd ev0 [] "" rfl rfl rfl rfl).1,
   (claim_C7_line_format db0 chUpd ev0 [] "" rfl rfl rfl rfl).2 rfl rfl rfl⟩

/-- Claim C8: a heartbeat firing emits exactly one line, the literal
"5 second heartbeat", and the loop then continues on the remaining wakeups
with the timer rearmed — the heartbeat adds exactly one occurrence of the
literal and never changes the loop's exit status, so a heartbeat never
terminates the loop. -/
theorem claim_C8_heartbeat_rearm (db : DB) (rest : List Signal) :
    runLoop db (Signal.heartbeat :: rest) =
      ("5 second heartbeat" :: (runLoop db rest).1, (runLoop db rest).2) ∧
    (runLoop db (Signal.heartbeat :: rest)).1.count "5 second heartbeat" =
      (runLoop db rest).1.count "5 second heartbeat" + 1 ∧
    (runLoop db (Signal.heartbeat :: rest)).2 = (runLoop db rest).2 := by
  refine ⟨rfl, ?_, rfl⟩
  show ("5 second heartbeat" :: (runLoop db rest).1).count _ = _
  simp [List.count_cons]

/-- Claim C9: `Output`, `Info`, `Warn` and `Error` each send exactly one
message on the output channel whose content is the argument unchanged, so
the four operations are extensionally equal on the wire. -/
theorem claim_C9_ui_methods_identical (s : String) :
    TextUI.Output s = [s] ∧ TextUI.Info s = [s] ∧ TextUI.Warn s = [s] ∧
    TextUI.Error s = [s] ∧ TextUI.Output s = TextUI.Info s ∧
    TextUI.Info s = TextUI.Warn s ∧ TextUI.Warn s = TextUI.Error s :=
  ⟨rfl, rfl, rfl, rfl, rfl, rfl, rfl⟩

/-- Claim C10: any tags-lookup error on a matched event — the empty-link
sentinel included — aborts the command with failure status, while the
empty-link result on the location and note lookups is treated as absence
and the loop proceeds to a successful closure. -/
theorem claim_C10_tags_strict (db : DB) (e : Event) :
    (∀ m, db.tags e = LookupResult.err m →
      runLoop db [Signal.change ⟨ChangeKind.Update, Record.event e⟩] =
        ([], failure)) ∧
    (db.tags e = LookupResult.emptyLink →
      runLoop db [Signal.change ⟨ChangeKind.Update, Record.event e⟩] =
        ([], failure)) ∧
    (∀ ts, db.tags e = LookupResult.ok ts →
      db.location e = LookupResult.emptyLink →
      db.note e = LookupResult.emptyLink →
      runLoop db [Signal.change ⟨ChangeKind.Update, Record.event e⟩] =
        ([renderTags ts ++ e.name ++ " ", "Connection closed by server"],
          success)) := by
  refine ⟨?_, ?_, ?_⟩
  · intro m htags
    have hpc : processChange db ⟨ChangeKind.Update, Record.event e⟩ =
        StepResult.fail [] := by
      simp [processChange, htags]
    exact runLoop_change_fail db _ [] [] hpc
  · intro htags
    have hpc : processChange db ⟨ChangeKind.Update, Record.event e⟩ =
        StepResult.fail [] := by
      simp [processChange, htags]
    exact runLoop_change_fail db _ [] [] hpc
  · intro ts htags hloc hnote
    have hpc : processChange db ⟨ChangeKind.Update, Record.event e⟩ =
        StepResult.emit [renderTags ts ++ e.name ++ " "] := by
      simp [processChange, htags, hloc, hnote, locPart, notePart,
        strAppend_empty]
    rw [runLoop_change_emit db _ [] _ hpc]
    rfl

/-- Claim C10 witness: the three lookup configurations on a concrete
event — tags erroring, tags returning the empty-link sentinel, and
empty-link location and note. -/
theorem claim_C10_witness :
    runLoop dbTagsErr
      [Signal.change ⟨ChangeKind.Update, Record.event ev0⟩] =
      ([], failure) ∧
    runLoop dbTagsEL
      [Signal.change ⟨ChangeKind.Update, Record.event ev0⟩] =
      ([], failure) ∧
    runLoop db0 [Signal.change ⟨ChangeKind.Update, Record.event ev0⟩] =
      ([renderTags [] ++ ev0.name ++ " ", "Connection closed by server"],
        success) :=
  ⟨(claim_C10_tags_strict dbTagsErr ev0).1 "boom" rfl,
   (claim_C10_tags_strict dbTagsEL ev0).2.1 rfl,
   (claim_C10_tags_strict db0 ev0).2.2 [] rfl rfl rfl⟩

end Elos
